import Mathlib

/-
Verification development for the roachdemo process supervisor (node.go,
cluster.go).  The definitions below are a shallow embedding of the Go
source: pure functions become Lean functions, the stateful node/run
lifecycle becomes explicit state passing plus a step relation, and
effectful outcomes (log.Fatalf, panics, blocked channel sends) become
explicit result constructors.  Machine-level concerns that no claim
depends on (timestamps, process wait status, the bytes actually written
to a sink) are recorded in comments where they are elided.
-/

deriving instance DecidableEq for Except

namespace RoachDemo

/-! ## Variable expander

node.go:323-331 defines replaceVars as a thin wrapper around Go's
os.Expand with a mapping that returns the bound value for a defined
name and the string "$" ++ name for an undefined one.  The definitions
below embed os.Expand's scanning loop (os/env.go: Expand, getShellName,
isShellSpecialVar, isAlphaNum) over `List Char`.  The scan is fueled
(fuel = remaining input length) so that every definition is structurally
recursive and kernel-evaluable; each loop iteration consumes exactly one
unit of fuel and never needs more fuel than characters remaining. -/

/-- Go os/env.go isShellSpecialVar: the shell special variable characters. -/
def isShellSpecialVar (c : Char) : Bool :=
  c = '*' || c = '#' || c = '$' || c = '@' || c = '!' || c = '?' || c = '-' ||
    ('0' ≤ c && c ≤ '9')

/-- Go os/env.go isAlphaNum: underscore, digits, ASCII letters. -/
def isAlphaNum (c : Char) : Bool :=
  c = '_' || ('0' ≤ c && c ≤ '9') || ('a' ≤ c && c ≤ 'z') || ('A' ≤ c && c ≤ 'Z')

/-- Scan for the first closing brace (the loop inside Go's getShellName for
the brace case): returns the characters before the brace and the number of
characters consumed including the brace, or none if no brace occurs. -/
def scanToBrace : List Char → Option (List Char × Nat)
  | [] => none
  | c :: rest =>
    if c = '}' then some ([], 1)
    else
      match scanToBrace rest with
      | some (nm, k) => some (c :: nm, k + 1)
      | none => none

/-- Outcome of Go getShellName for a string starting with a brace, after the
special-variable-in-brace case has been ruled out: scan to the closing brace;
an immediately-closed brace is eaten as bad syntax (name empty, width 2); a
missing closing brace eats just the brace (name empty, width 1). -/
def braceName (rest : List Char) : List Char × Nat :=
  match scanToBrace rest with
  | some (nm, k) => if nm = [] then ([], 2) else (nm, k + 1)
  | none => ([], 1)

/-- Go os/env.go getShellName: the variable name that begins the string and
the number of characters consumed.  The input is the text right after a
dollar sign.  (Go indexes s[0]; os.Expand only calls it on nonempty input,
the empty case is given the harmless value (empty, 0).) -/
def getShellName (s : List Char) : List Char × Nat :=
  match s with
  | [] => ([], 0)
  | '{' :: rest =>
    match rest with
    | a :: b :: _ =>
      if isShellSpecialVar a = true ∧ b = '}' then ([a], 3) else braceName rest
    | _ => braceName rest
  | c :: cs =>
    if isShellSpecialVar c then ([c], 1)
    else
      let nm := (c :: cs).takeWhile isAlphaNum
      (nm, nm.length)

/-- A parsed piece of a template: literal characters, or one variable
reference as recognized by getShellName. -/
inductive Tok where
  | lit (cs : List Char)
  | var (nm : List Char)
deriving DecidableEq, Repr

/-- Render one token given the mapping applied to variable names. -/
def tokRender (f : List Char → List Char) : Tok → List Char
  | .lit cs => cs
  | .var nm => f nm

/-- Go os/env.go Expand, fueled: scan for dollar signs; on a dollar followed
by a nonempty remainder, consult getShellName; invalid syntax is eaten, a
dollar not followed by a name is kept literally, and a recognized name is
replaced by the mapping's answer.  A trailing dollar is kept literally. -/
def expandL (f : List Char → List Char) : Nat → List Char → List Char
  | _, [] => []
  | 0, _ :: _ => []
  | fuel + 1, c :: rest =>
    if c = '$' ∧ rest ≠ [] then
      let p := getShellName rest
      if p.1 = [] ∧ 0 < p.2 then expandL f fuel (rest.drop p.2)
      else if p.1 = [] then '$' :: expandL f fuel rest
      else f p.1 ++ expandL f fuel (rest.drop p.2)
    else c :: expandL f fuel rest

/-- The same scan as expandL, producing the token decomposition instead of
the expansion; the scan never depends on the mapping. -/
def parseL : Nat → List Char → List Tok
  | _, [] => []
  | 0, _ :: _ => []
  | fuel + 1, c :: rest =>
    if c = '$' ∧ rest ≠ [] then
      let p := getShellName rest
      if p.1 = [] ∧ 0 < p.2 then parseL fuel (rest.drop p.2)
      else if p.1 = [] then .lit ['$'] :: parseL fuel rest
      else .var p.1 :: parseL fuel (rest.drop p.2)
    else .lit [c] :: parseL fuel rest

/-- Token decomposition of a template string, with exactly enough fuel. -/
def parseTmpl (cs : List Char) : List Tok := parseL cs.length cs

/-- The mapping closure of node.go:324-330: a defined name yields its value,
an undefined one yields "$" ++ name. -/
def lookupVar (vars : List (String × String)) (name : String) : String :=
  match List.lookup name vars with
  | some v => v
  | none => "$" ++ name

/-- lookupVar as a mapping on character lists, as os.Expand consumes it. -/
def mappingOf (vars : List (String × String)) (nm : List Char) : List Char :=
  (lookupVar vars (String.mk nm)).data

/-- node.go:323-331 replaceVars: os.Expand of the template against the
variable mapping, undefined names mapping to "$" ++ name. -/
def replaceVars (text : String) (vars : List (String × String)) : String :=
  String.mk (expandL (mappingOf vars) text.data.length text.data)

/-- Spec-shaped rendering of one parsed token: a variable occurrence whose
name is defined in the mapping becomes its value; an undefined occurrence
becomes the dollar sign followed by the bare name (braces stripped). -/
def renderVars (vars : List (String × String)) : Tok → List Char
  | .lit cs => cs
  | .var nm =>
    match List.lookup (String.mk nm) vars with
    | some v => v.data
    | none => '$' :: nm

/-! ## Decimal conversion

node.go:243 uses strconv.Itoa(run) to bind the RUN variable.  The run
index is a run-history length, hence nonnegative, so Itoa is plain
decimal notation.  The conversion is fueled so it is structurally
recursive and kernel-evaluable. -/

/-- The character for a decimal digit. -/
def digitChar (d : Nat) : Char := Char.ofNat (48 + d)

/-- Little-endian decimal digits of a number; fuel bounds the recursion
depth (any fuel above the number itself is enough). -/
def toDigitsRevL : Nat → Nat → List Char
  | 0, _ => []
  | fuel + 1, n =>
    if n < 10 then [digitChar n] else digitChar (n % 10) :: toDigitsRevL fuel (n / 10)

/-- Go strconv.Itoa restricted to nonnegative input: decimal notation. -/
def itoa (n : Nat) : String := String.mk (toDigitsRevL (n + 1) n).reverse

/-- Numeric value of a little-endian digit character list (proof tool used
to invert toDigitsRevL). -/
def valRev : List Char → Nat
  | [] => 0
  | c :: cs => (c.toNat - 48) + 10 * valRev cs

/-! ## Process run model

nodeRun (node.go:32-48) and its methods.  A Sink stands for an open
fileLogWriter (node.go:146-185); the absent sink is the nil logWriter
interface value left when a path is empty (node.go:61, 70).  Timestamps
(Started/Stopped, node.go:59, 107) are modeled as booleans recording that
the assignment happened; the syscall.WaitStatus and the bytes written are
not modeled (no claim depends on them). -/

/-- An opened fileLogWriter, identified by its backing path (node.go:146-161). -/
structure Sink where
  filename : String
deriving DecidableEq, Repr

/-- The exec.Cmd handle: the process field is nil until Cmd.Start succeeds
(the pid is then positive). -/
structure CmdState where
  process : Option Nat
deriving DecidableEq, Repr

/-- nodeRun (node.go:32-48).  cmd is none only for a zero-value run; runs
created by node.start always carry a Cmd (node.go:240, 250) whose process
is none until the spawn succeeds.  stdoutBuf / stderrBuf are none exactly
when the corresponding logWriter interface field is nil. -/
structure RunState where
  id : Nat
  cmd : Option CmdState
  error : Option String
  startedSet : Bool
  stoppedSet : Bool
  args : List String
  attrs : String
  locality : String
  stdout : String
  stderr : String
  stdoutBuf : Option Sink
  stderrBuf : Option Sink
  env : List (String × String)
  paused : Bool
deriving DecidableEq, Repr

/-- Environment of OS facts consumed by a run start: whether os.Create
succeeds on a path (node.go:152) and whether Cmd.Start succeeds
(node.go:83), with the pid handed out on success. -/
structure Oracle where
  openOk : String → Bool
  spawnOk : Bool
  spawnPid : Nat

/-- Result of nodeRun.start (node.go:58-110), seen from the caller.
fatal: log.Fatalf on a sink-open failure terminates the whole application
(node.go:64, 73).  panicked: the launch-failure path called Close on a nil
logWriter interface (node.go:90-91), a nil-pointer panic.  blocked: the
launch-failure path reached the send on the unbuffered exit channel
(node.go:92); the receiver goroutine is only created after start returns
(node.go:260), so the send blocks forever and start never returns — the
run state shown is what other goroutines observe.  spawned: Cmd.Start
succeeded and start returned; the waiter goroutine (node.go:95-109) will
eventually fire. -/
inductive RunStartRes where
  | fatal (path : String)
  | panicked (r : RunState)
  | blocked (r : RunState)
  | spawned (r : RunState)
deriving DecidableEq, Repr

/-- nodeRun.start (node.go:58-110): record the start time, open a sink for
each nonempty path (log.Fatalf on failure), attach them as the process's
standard streams (not further modeled: an absent sink leaves the stream
connected to the null device, discarding output), then attempt the spawn.
On spawn failure the error is recorded, both sinks are closed — a panic if
either interface is nil — and the notification send blocks.  The
environment merge into Cmd.Env (node.go:79-81) has no further observable
effect in the model. -/
def nodeRunStart (r : RunState) (o : Oracle) : RunStartRes :=
  let r1 : RunState := { r with startedSet := true }
  if 0 < r1.stdout.length ∧ o.openOk r1.stdout = false then .fatal r1.stdout
  else
    let r2 : RunState :=
      if 0 < r1.stdout.length then { r1 with stdoutBuf := some ⟨r1.stdout⟩ } else r1
    if 0 < r2.stderr.length ∧ o.openOk r2.stderr = false then .fatal r2.stderr
    else
      let r3 : RunState :=
        if 0 < r2.stderr.length then { r2 with stderrBuf := some ⟨r2.stderr⟩ } else r2
      if o.spawnOk then .spawned { r3 with cmd := some ⟨some o.spawnPid⟩ }
      else
        let r4 : RunState := { r3 with error := some "fork/exec error" }
        if r4.stdoutBuf.isSome ∧ r4.stderrBuf.isSome then .blocked r4
        else .panicked r4

/-- Ways the supervising application stops abnormally: log.Fatalf on a
sink-open failure, or an unrecovered nil-interface Close panic. -/
inductive Crash where
  | fatal (path : String)
  | panicNilClose
deriving DecidableEq, Repr

/-- The waiter goroutine body (node.go:95-109) once Cmd.Wait has returned:
close both sinks — a nil-pointer panic if either logWriter interface is
nil — then record the stop time.  The send on the exit channel that
follows (node.go:108) is delivered to the handler goroutine armed at
node.go:260; the node-level nodeComplete models that handler. -/
def runWaiter (r : RunState) : Except Crash RunState :=
  if r.stdoutBuf.isSome ∧ r.stderrBuf.isSome then .ok { r with stoppedSet := true }
  else .error .panicNilClose

/-- An OS signal sent to a pid; delivery failures are ignored by the code
(node.go:118, 127, 136), so signals are recorded, not checked. -/
inductive Sig where
  | kill (pid : Nat)
  | stopSig (pid : Nat)
  | contSig (pid : Nat)
deriving DecidableEq, Repr

/-- nodeRun.stop (node.go:112-119): no-op unless both Cmd and Cmd.Process
are non-nil; otherwise clear paused and kill the process. -/
def nodeRunStop (r : RunState) : RunState × List Sig :=
  match r.cmd with
  | none => (r, [])
  | some c =>
    match c.process with
    | none => (r, [])
    | some pid => ({ r with paused := false }, [.kill pid])

/-- nodeRun.pause (node.go:121-128): no-op unless both Cmd and Cmd.Process
are non-nil; otherwise set paused and send SIGSTOP. -/
def nodeRunPause (r : RunState) : RunState × List Sig :=
  match r.cmd with
  | none => (r, [])
  | some c =>
    match c.process with
    | none => (r, [])
    | some pid => ({ r with paused := true }, [.stopSig pid])

/-- nodeRun.resume (node.go:130-137): no-op unless both Cmd and Cmd.Process
are non-nil; otherwise clear paused and send SIGCONT. -/
def nodeRunResume (r : RunState) : RunState × List Sig :=
  match r.cmd with
  | none => (r, [])
  | some c =>
    match c.process with
    | none => (r, [])
    | some pid => ({ r with paused := false }, [.contSig pid])

/-! ## Node model

node (node.go:16-30) and its operations.  The Active pointer is modeled
as the index of the active run in the run history (node.go:248, 256 set
Active to the freshly appended run, so the pointer is always an element
of Runs; stale states reachable through the completion handler are
covered by Option).  The per-run exit-channel receiver goroutine
(node.go:260-268) is modeled by the waiters list (spawned runs whose
waiter has not yet fired) and the restarts counter (service restarts
scheduled by the handler but not yet executed, node.go:263-266). -/

/-- node (node.go:16-30) plus the scheduling ghosts described above. -/
structure NodeState where
  name : String
  args : List String
  env : List (String × String)
  stdout : String
  stderr : String
  attrs : String
  locality : String
  active : Option Nat
  runs : List RunState
  service : Bool
  waiters : List Nat
  restarts : Nat
deriving DecidableEq, Repr

/-- Per-run output-path resolution (node.go:242-246): expand the node's
path template with the single variable RUN bound to the run index. -/
def perRunPath (tmpl : String) (run : Nat) : String :=
  replaceVars tmpl [("RUN", itoa run)]

/-- node.start (node.go:228-269): no-op if a run is active.  Otherwise the
new run index is the current history length; the argument template is
expanded against the node environment, the output paths against RUN; the
run is created, made active, appended to the history, and started.  A
fatal or panicking run start takes the application down; a blocked start
leaves the node state observable to other goroutines with no waiter armed
(the notification can never be received); a successful spawn arms the
waiter goroutine. -/
def nodeStart (n : NodeState) (o : Oracle) : Except Crash NodeState :=
  match n.active with
  | some _ => .ok n
  | none =>
    let runId := n.runs.length
    let args := n.args.map (fun a => replaceVars a n.env)
    let so := perRunPath n.stdout runId
    let se := perRunPath n.stderr runId
    let r : RunState :=
      { id := runId, cmd := some ⟨none⟩, error := none, startedSet := false,
        stoppedSet := false, args := args, attrs := "", locality := "",
        stdout := so, stderr := se, stdoutBuf := none, stderrBuf := none,
        env := n.env, paused := false }
    match nodeRunStart r o with
    | .fatal p => .error (.fatal p)
    | .panicked _ => .error .panicNilClose
    | .blocked rr => .ok { n with active := some runId, runs := n.runs ++ [rr] }
    | .spawned rr =>
      .ok { n with
        active := some runId, runs := n.runs ++ [rr]
        waiters := n.waiters ++ [runId] }

/-- node.stop (node.go:271-276): if a run is active, forward stop to it and
clear the active pointer; otherwise do nothing. -/
def nodeStop (n : NodeState) : NodeState :=
  match n.active with
  | none => n
  | some i =>
    match n.runs[i]? with
    | none => { n with active := none }
    | some r => { n with runs := n.runs.set i (nodeRunStop r).1, active := none }

/-- node.pause (node.go:278-282): forward to the active run if any. -/
def nodePause (n : NodeState) : NodeState :=
  match n.active with
  | none => n
  | some i =>
    match n.runs[i]? with
    | none => n
    | some r => { n with runs := n.runs.set i (nodeRunPause r).1 }

/-- node.resume (node.go:284-288): forward to the active run if any. -/
def nodeResume (n : NodeState) : NodeState :=
  match n.active with
  | none => n
  | some i =>
    match n.runs[i]? with
    | none => n
    | some r => { n with runs := n.runs.set i (nodeRunResume r).1 }

/-- node.Status (node.go:290-299): recomputed from the current fields on
every call.  Paused or Running exactly when there is an active run whose
Cmd and Cmd.Process are non-nil with a positive pid, split on the paused
flag; Stopped in every other case. -/
def nodeStatus (n : NodeState) : String :=
  match n.active with
  | none => "Stopped"
  | some i =>
    match n.runs[i]? with
    | none => "Stopped"
    | some r =>
      match r.cmd with
      | none => "Stopped"
      | some c =>
        match c.process with
        | none => "Stopped"
        | some pid =>
          if 0 < pid then (if r.paused then "Paused" else "Running") else "Stopped"

/-- The current OS user as user.Current returns it (node.go:302). -/
structure OsUser where
  username : String
  uid : String
  gid : String
  home : String

/-- OS facts consumed by addDefaultVars: the current user (none when
user.Current fails) and the PATH of the supervisor process. -/
structure OsEnv where
  user : Option OsUser
  path : String

/-- Insert a binding only when the key is absent (the pattern at
node.go:304-318). -/
def setDefaultVar (vars : List (String × String)) (k v : String) :
    List (String × String) :=
  if (List.lookup k vars).isSome then vars else vars ++ [(k, v)]

/-- addDefaultVars (node.go:301-321): when user.Current succeeds, seed
USER, UID, GID and HOME if absent; always seed PATH from the process
environment if absent. -/
def addDefaultVars (osq : OsEnv) (vars : List (String × String)) :
    List (String × String) :=
  let vars1 :=
    match osq.user with
    | some u =>
      setDefaultVar
        (setDefaultVar (setDefaultVar (setDefaultVar vars "USER" u.username)
          "UID" u.uid) "GID" u.gid) "HOME" u.home
    | none => vars
  setDefaultVar vars1 "PATH" osq.path

/-- newNode (node.go:187-222): seed the environment with the default
variables, expand the stdout/stderr templates against it once, build the
node with an empty history, and, in service mode, call start before
returning. -/
def newNode (osq : OsEnv) (o : Oracle) (name : String) (args : List String)
    (env : List (String × String)) (service : Bool)
    (stdout stderr attributes locality : String) : Except Crash NodeState :=
  let env := addDefaultVars osq env
  let so := replaceVars stdout env
  let se := replaceVars stderr env
  let n : NodeState :=
    { name := name, args := args, env := env, stdout := so, stderr := se,
      attrs := attributes, locality := locality, active := none, runs := [],
      service := service, waiters := [], restarts := 0 }
  if n.service then nodeStart n o else .ok n

/-- The handler goroutine body (node.go:261-267) for run i, fused with the
waiter that feeds its channel: when run i's process has exited, the waiter
closes the sinks and sends; the handler receives, clears the active
pointer unconditionally (even when a newer run is active by now), and, if
the node is in service mode at that moment, schedules a restart (the
sleep-then-start tail, node.go:264-265). -/
def nodeComplete (n : NodeState) (i : Nat) : Except Crash NodeState :=
  if i ∈ n.waiters then
    match n.runs[i]? with
    | some r =>
      match runWaiter r with
      | .error c => .error c
      | .ok rr =>
        .ok { n with
          runs := n.runs.set i rr, waiters := n.waiters.erase i
          active := none
          restarts := if n.service then n.restarts + 1 else n.restarts }
    | none =>
      .ok { n with
        waiters := n.waiters.erase i, active := none
        restarts := if n.service then n.restarts + 1 else n.restarts }
  else .ok n

/-- A scheduled service restart firing (node.go:265): the handler calls
node.start after its backoff sleep. -/
def nodeRestart (n : NodeState) (o : Oracle) : Except Crash NodeState :=
  if 0 < n.restarts then nodeStart { n with restarts := n.restarts - 1 } o
  else .ok n

/-- The operations that can hit a node, from request handlers
(cluster.go:451-495: start/stop/pause/resume and the Service flag writes)
and from the per-run waiter/handler goroutines. -/
inductive NEv where
  | start (o : Oracle)
  | stop
  | pause
  | resume
  | complete (i : Nat)
  | restart (o : Oracle)
  | setService (b : Bool)

/-- One step of the node under an operation. -/
def nodeStep (n : NodeState) : NEv → Except Crash NodeState
  | .start o => nodeStart n o
  | .stop => .ok (nodeStop n)
  | .pause => .ok (nodePause n)
  | .resume => .ok (nodeResume n)
  | .complete i => nodeComplete n i
  | .restart o => nodeRestart n o
  | .setService b => .ok { n with service := b }

/-- Run a sequence of operations, stopping at the first crash. -/
def nodeExec (n : NodeState) : List NEv → Except Crash NodeState
  | [] => .ok n
  | e :: es =>
    match nodeStep n e with
    | .error c => .error c
    | .ok m => nodeExec m es

/-- The history invariant of claim C5: the i-th run of the history carries
id i, and the active pointer, when set, designates the last element. -/
def histInv (n : NodeState) : Prop :=
  (∀ i, (h : i < n.runs.length) → (n.runs.get ⟨i, h⟩).id = i) ∧
    (∀ j, n.active = some j → j + 1 = n.runs.length)

/-! ## Proof auxiliaries and concrete fixtures -/

/-- The characters of the per-run variable name RUN. -/
def runChars : List Char := ['R', 'U', 'N']

/-- Rendering of one token under the singleton per-run mapping with RUN
bound to v (proof tool: renderVars specialised to node.go:242-244). -/
def rendRUN (v : List Char) : Tok → List Char
  | .lit cs => cs
  | .var nm => if nm = runChars then v else '$' :: nm

/-- Number of RUN variable tokens in a parsed template. -/
def runCount : List Tok → Nat
  | [] => 0
  | .lit _ :: ts => runCount ts
  | .var nm :: ts => (if nm = runChars then 1 else 0) + runCount ts

/-- Total rendered length of the non-RUN tokens of a parsed template. -/
def fixedLen : List Tok → Nat
  | [] => 0
  | .lit cs :: ts => cs.length + fixedLen ts
  | .var nm :: ts => (if nm = runChars then 0 else nm.length + 1) + fixedLen ts

/-- An oracle on which every sink opens and every spawn succeeds. -/
def orcOk : Oracle := ⟨fun _ => true, true, 7⟩

/-- An oracle on which no sink path can be opened. -/
def orcNoOpen : Oracle := ⟨fun _ => false, true, 7⟩

/-- An oracle on which sinks open but the spawn fails. -/
def orcNoSpawn : Oracle := ⟨fun _ => true, false, 7⟩

/-- An OS environment with no current user and PATH equal to /p. -/
def osPlain : OsEnv := ⟨none, "/p"⟩

/-- A freshly created run of a node with output paths out.log / err.log,
as node.start builds it (node.go:248-255) for run index 0. -/
def runFixture : RunState :=
  { id := 0, cmd := some ⟨none⟩, error := none, startedSet := false,
    stoppedSet := false, args := ["bin"], attrs := "", locality := "",
    stdout := "out.log", stderr := "err.log", stdoutBuf := none,
    stderrBuf := none, env := [], paused := false }

/-- A run whose output path templates resolved to empty (claim C3). -/
def runNoSinks : RunState := { runFixture with stdout := "", stderr := "" }

/-- runNoSinks after a successful spawn: no sink was created for either
stream. -/
def runNoSinksSpawned : RunState :=
  { runNoSinks with startedSet := true, cmd := some ⟨some 7⟩ }

/-- runFixture after its launch failure: error recorded, both sinks opened
and closed, the notification send still blocked. -/
def runLaunchFailed : RunState :=
  { runFixture with
    startedSet := true, error := some "fork/exec error"
    stdoutBuf := some ⟨"out.log"⟩, stderrBuf := some ⟨"err.log"⟩ }

/-- An exited run: the process handle is still present (Cmd.Process stays
non-nil after exit), the waiter has closed the sinks and recorded the stop
time. -/
def runExited : RunState :=
  { runFixture with
    startedSet := true, stoppedSet := true, cmd := some ⟨some 7⟩
    stdoutBuf := some ⟨"out.log"⟩, stderrBuf := some ⟨"err.log"⟩ }

/-- A run that was never handed to node.start: zero value, no Cmd at all. -/
def runNoCmd : RunState := { runFixture with cmd := none }

/-- An idle node as newNode builds it for a non-service node with empty
output path templates (after default-variable seeding against osPlain). -/
def nodeIdle : NodeState :=
  { name := "w", args := ["bin"], env := [("PATH", "/p")], stdout := "",
    stderr := "", attrs := "", locality := "", active := none, runs := [],
    service := false, waiters := [], restarts := 0 }

/-- nodeIdle after one successful start: run 0 spawned with no sinks. -/
def nodeIdleStarted : NodeState :=
  { nodeIdle with
    active := some 0
    runs := [{ id := 0, cmd := some ⟨some 7⟩, error := none,
               startedSet := true, stoppedSet := false, args := ["bin"],
               attrs := "", locality := "", stdout := "", stderr := "",
               stdoutBuf := none, stderrBuf := none,
               env := [("PATH", "/p")], paused := false }]
    waiters := [0] }

/-- A node about to start a run whose stdout path cannot be opened
(claim C2). -/
def nodeSinkDenied : NodeState := { nodeIdle with stdout := "out.log" }

/-- The node newNode builds from the path template containing a RUN
occurrence directly followed by a name character: construction-time
expansion has already rewritten the template to the brace-free form
(claim C8). -/
def nodeFusedRun : NodeState :=
  { nodeIdle with name := "n", stdout := "$RUNx" }

/-- A second node whose stdout path will be denied, for exercising the
amended claim C2 at a concrete input. -/
def nodeSinkDeniedB : NodeState := { nodeIdle with stdout := "w.log" }

/-- A node whose stdout template is empty but whose stderr path will be
denied, for exercising the stderr branch of the amended claim C2
(node.go:71-73) at a concrete input. -/
def nodeStderrDenied : NodeState := { nodeIdle with stderr := "e.log" }

/-- nodeIdleStarted in service mode: what newNode returns for a service
node with empty output path templates. -/
def nodeServiceStarted : NodeState := { nodeIdleStarted with service := true }

/-! ## Expander lemmas -/

/-- The expansion loop is the token scan followed by per-token rendering:
the scan of os.Expand never depends on the mapping. -/
theorem expandL_eq_parseL (f : List Char → List Char) :
    ∀ (fuel : Nat) (cs : List Char), cs.length ≤ fuel →
      expandL f fuel cs = (parseL fuel cs).flatMap (tokRender f) := by
  intro fuel
  induction fuel with
  | zero =>
    intro cs h
    cases cs with
    | nil => simp [expandL, parseL]
    | cons c rest => simp at h
  | succ fuel ih =>
    intro cs h
    cases cs with
    | nil => simp [expandL, parseL]
    | cons c rest =>
      have hrest : rest.length ≤ fuel := by
        simp only [List.length_cons] at h
        omega
      have hdrop : ∀ k : Nat, (rest.drop k).length ≤ fuel := by
        intro k
        rw [List.length_drop]
        omega
      simp only [expandL, parseL]
      split_ifs with h1 h2 h3
      · exact ih _ (hdrop _)
      · rw [List.flatMap_cons, ih _ hrest]
        rfl
      · rw [List.flatMap_cons, ih _ (hdrop _)]
        rfl
      · rw [List.flatMap_cons, ih _ hrest]
        rfl

/-- tokRender over the replaceVars mapping closure coincides with the
spec-shaped renderVars. -/
theorem tokRender_mappingOf (vars : List (String × String)) :
    tokRender (mappingOf vars) = renderVars vars := by
  funext t
  cases t with
  | lit cs => rfl
  | var nm =>
    simp only [tokRender, mappingOf, lookupVar, renderVars]
    cases h : List.lookup (String.mk nm) vars with
    | some v => simp [h]
    | none => simp [h, String.data_append]

/-- replaceVars is exactly: parse the template, then render each token,
replacing a defined variable occurrence by its value and rewriting an
undefined one to the dollar sign followed by the bare name. -/
theorem replaceVars_eq_render (text : String) (vars : List (String × String)) :
    replaceVars text vars =
      String.mk ((parseTmpl text.data).flatMap (renderVars vars)) := by
  unfold replaceVars parseTmpl
  rw [expandL_eq_parseL _ _ _ (le_refl _), tokRender_mappingOf]

/-! ## Decimal conversion lemmas -/

/-- Decimal digit characters decode back to their digit. -/
theorem digitChar_toNat : ∀ d : Nat, d < 10 → (digitChar d).toNat = 48 + d := by
  decide

/-- valRev inverts the fueled digit conversion whenever the fuel suffices. -/
theorem valRev_toDigitsRevL :
    ∀ (fuel n : Nat), n < fuel → valRev (toDigitsRevL fuel n) = n := by
  intro fuel
  induction fuel with
  | zero => intro n h; omega
  | succ fuel ih =>
    intro n h
    by_cases h10 : n < 10
    · simp only [toDigitsRevL, if_pos h10, valRev]
      rw [digitChar_toNat n h10]
      omega
    · simp only [toDigitsRevL, if_neg h10, valRev]
      have hlt : n / 10 < n := Nat.div_lt_self (by omega) (by omega)
      rw [ih (n / 10) (by omega), digitChar_toNat (n % 10) (Nat.mod_lt _ (by omega))]
      omega

/-- Go strconv.Itoa is injective on run indices. -/
theorem itoa_inj {m n : Nat} (h : itoa m = itoa n) : m = n := by
  unfold itoa at h
  have h2 : (toDigitsRevL (m + 1) m).reverse = (toDigitsRevL (n + 1) n).reverse :=
    congrArg String.data h
  rw [List.reverse_inj] at h2
  have h3 := congrArg valRev h2
  rwa [valRev_toDigitsRevL _ _ (Nat.lt_succ_self m),
    valRev_toDigitsRevL _ _ (Nat.lt_succ_self n)] at h3

/-! ## RUN distinctness machinery (claim C8) -/

/-- Under the singleton per-run mapping of node.go:242-244, renderVars is
rendRUN. -/
theorem renderVars_run (v : String) :
    renderVars [("RUN", v)] = rendRUN v.data := by
  funext t
  cases t with
  | lit cs => rfl
  | var nm =>
    simp only [renderVars, rendRUN, List.lookup_cons]
    have hiff : (String.mk nm == "RUN") = true ↔ nm = runChars := by
      constructor
      · intro hbeq
        have := congrArg String.data (eq_of_beq hbeq)
        simpa [runChars] using this
      · intro hnm
        subst hnm
        decide
    by_cases hnm : nm = runChars
    · rw [(hiff.2 hnm : _), hnm]
      rfl
    · have hfalse : (String.mk nm == "RUN") = false := by
        cases hb : String.mk nm == "RUN" with
        | true => exact absurd (hiff.1 hb) hnm
        | false => rfl
      rw [hfalse]
      simp [List.lookup, if_neg hnm]

/-- Length of the rendered template: the fixed part plus one copy of the
RUN value per RUN occurrence. -/
theorem rendRUN_length (v : List Char) :
    ∀ toks : List Tok,
      (toks.flatMap (rendRUN v)).length = fixedLen toks + runCount toks * v.length := by
  intro toks
  induction toks with
  | nil => simp [fixedLen, runCount]
  | cons t ts ih =>
    cases t with
    | lit cs =>
      simp only [List.flatMap_cons, List.length_append, rendRUN, fixedLen, runCount, ih]
      omega
    | var nm =>
      by_cases hnm : nm = runChars
      · simp only [List.flatMap_cons, List.length_append, rendRUN, fixedLen, runCount,
          if_pos hnm, ih]
        rw [Nat.add_mul]
        omega
      · simp only [List.flatMap_cons, List.length_append, rendRUN, fixedLen, runCount,
          if_neg hnm, ih, List.length_cons]
        rw [Nat.add_mul]
        omega

/-- A template containing a RUN occurrence has a positive RUN count. -/
theorem runCount_pos :
    ∀ toks : List Tok, Tok.var runChars ∈ toks → 0 < runCount toks := by
  intro toks
  induction toks with
  | nil => intro h; simp at h
  | cons t ts ih =>
    intro h
    rcases List.mem_cons.1 h with heq | hmem
    · subst heq
      simp [runCount]
    · cases t with
      | lit cs => simpa [runCount] using ih hmem
      | var nm =>
        simp only [runCount]
        have := ih hmem
        omega

/-- Two equally-long RUN values rendering a template with a RUN occurrence
to the same string are equal. -/
theorem rendRUN_inj_of_length {v₁ v₂ : List Char} (hlen : v₁.length = v₂.length) :
    ∀ toks : List Tok,
      toks.flatMap (rendRUN v₁) = toks.flatMap (rendRUN v₂) →
        Tok.var runChars ∈ toks → v₁ = v₂ := by
  intro toks
  induction toks with
  | nil => intro _ h; simp at h
  | cons t ts ih =>
    intro heq hmem
    simp only [List.flatMap_cons] at heq
    have hplen : (rendRUN v₁ t).length = (rendRUN v₂ t).length := by
      cases t with
      | lit cs => rfl
      | var nm =>
        by_cases hnm : nm = runChars
        · simpa [rendRUN, if_pos hnm] using hlen
        · simp [rendRUN, if_neg hnm]
    obtain ⟨h1, h2⟩ := List.append_inj heq hplen
    rcases List.mem_cons.1 hmem with heqt | hmemts
    · subst heqt
      simpa [rendRUN, runChars] using h1
    · exact ih h2 hmemts

/-- Distinct run indices give distinct resolved paths whenever the
construction-expanded template still parses to contain a RUN variable
occurrence. -/
theorem perRunPath_inj {s : String} (hmem : Tok.var runChars ∈ parseTmpl s.data)
    {i j : Nat} (hij : i ≠ j) : perRunPath s i ≠ perRunPath s j := by
  intro heq
  apply hij
  unfold perRunPath at heq
  rw [replaceVars_eq_render, replaceVars_eq_render, renderVars_run, renderVars_run] at heq
  have hdata : (parseTmpl s.data).flatMap (rendRUN (itoa i).data) =
      (parseTmpl s.data).flatMap (rendRUN (itoa j).data) :=
    congrArg String.data heq
  have hlen : (itoa i).data.length = (itoa j).data.length := by
    have h1 := rendRUN_length (itoa i).data (parseTmpl s.data)
    have h2 := rendRUN_length (itoa j).data (parseTmpl s.data)
    have hcnt := runCount_pos _ hmem
    rw [hdata, h2] at h1
    have := Nat.eq_of_mul_eq_mul_left hcnt
      (by omega : runCount (parseTmpl s.data) * (itoa i).data.length =
        runCount (parseTmpl s.data) * (itoa j).data.length)
    omega
  have hv : (itoa i).data = (itoa j).data :=
    rendRUN_inj_of_length hlen _ hdata hmem
  exact itoa_inj (by
    cases hi : itoa i with
    | mk l =>
      cases hjj : itoa j with
      | mk l' =>
        rw [hi, hjj] at hv
        simpa [hv] using congrArg String.mk hv)

/-! ## Run-level lemmas -/

/-- A blocked run start keeps the run id and records the start time. -/
theorem nodeRunStart_blocked_fields {r : RunState} {o : Oracle} {rr : RunState}
    (h : nodeRunStart r o = .blocked rr) : rr.id = r.id ∧ rr.startedSet = true := by
  simp only [nodeRunStart] at h
  split_ifs at h <;>
    (injection h with h
     subst h
     exact ⟨rfl, rfl⟩)

/-- A spawned run start keeps the run id and records the start time. -/
theorem nodeRunStart_spawned_fields {r : RunState} {o : Oracle} {rr : RunState}
    (h : nodeRunStart r o = .spawned rr) : rr.id = r.id ∧ rr.startedSet = true := by
  simp only [nodeRunStart] at h
  split_ifs at h <;>
    (injection h with h
     subst h
     exact ⟨rfl, rfl⟩)

/-- The waiter keeps the run id. -/
theorem runWaiter_ok_id {r rr : RunState} (h : runWaiter r = .ok rr) :
    rr.id = r.id := by
  simp only [runWaiter] at h
  split_ifs at h
  injection h with h
  subst h
  rfl

/-- stop keeps the run id. -/
theorem nodeRunStop_id (r : RunState) : ((nodeRunStop r).1).id = r.id := by
  simp only [nodeRunStop]
  split
  · rfl
  · split <;> rfl

/-- pause keeps the run id. -/
theorem nodeRunPause_id (r : RunState) : ((nodeRunPause r).1).id = r.id := by
  simp only [nodeRunPause]
  split
  · rfl
  · split <;> rfl

/-- resume keeps the run id. -/
theorem nodeRunResume_id (r : RunState) : ((nodeRunResume r).1).id = r.id := by
  simp only [nodeRunResume]
  split
  · rfl
  · split <;> rfl

/-! ## Node-start lemmas -/

/-- node.start is a no-op when a run is already active (node.go:229-231). -/
theorem nodeStart_some {n : NodeState} (o : Oracle) {k : Nat}
    (h : n.active = some k) : nodeStart n o = .ok n := by
  unfold nodeStart
  rw [h]

/-- A start that returns normally from the idle state makes the freshly
appended run active; its id is the previous history length and its start
time is recorded. -/
theorem nodeStart_ok_fields {n : NodeState} {o : Oracle} {n' : NodeState}
    (ha : n.active = none) (h : nodeStart n o = .ok n') :
    n'.active = some n.runs.length ∧
      (∃ rr, n'.runs = n.runs ++ [rr] ∧ rr.id = n.runs.length ∧
        rr.startedSet = true) ∧
      n'.service = n.service := by
  unfold nodeStart at h
  rw [ha] at h
  simp only [] at h
  split at h
  · exact absurd h (by simp)
  · exact absurd h (by simp)
  · rename_i rr heq
    injection h with h
    subst h
    obtain ⟨hid, hst⟩ := nodeRunStart_blocked_fields heq
    refine ⟨rfl, ⟨rr, rfl, ?_, hst⟩, rfl⟩
    simpa using hid
  · rename_i rr heq
    injection h with h
    subst h
    obtain ⟨hid, hst⟩ := nodeRunStart_spawned_fields heq
    refine ⟨rfl, ⟨rr, rfl, ?_, hst⟩, rfl⟩
    simpa using hid

/-- Any normally-returning start leaves the active pointer at the last
history position and can only grow the history. -/
theorem nodeStart_inv {n : NodeState} {o : Oracle} {n' : NodeState}
    (hinv : histInv n) (h : nodeStart n o = .ok n') :
    histInv n' ∧ n.runs.length ≤ n'.runs.length := by
  cases hact : n.active with
  | some k =>
    rw [nodeStart_some o hact] at h
    injection h with h
    subst h
    exact ⟨hinv, le_refl _⟩
  | none =>
    obtain ⟨ha', ⟨rr, hruns, hid, _⟩, _⟩ := nodeStart_ok_fields hact h
    constructor
    · constructor
      · intro i hi
        rw [List.get_eq_getElem]
        simp only [hruns] at hi ⊢
        by_cases hlt : i < n.runs.length
        · rw [List.getElem_append_left hlt]
          have := hinv.1 i hlt
          rwa [List.get_eq_getElem] at this
        · have hle : n.runs.length ≤ i := Nat.le_of_not_lt hlt
          have : i = n.runs.length := by
            simp only [List.length_append, List.length_cons, List.length_nil] at hi
            omega
          subst this
          rw [List.getElem_append_right (le_refl _)]
          simpa using hid
      · intro j hj
        rw [ha'] at hj
        injection hj with hj
        subst hj
        rw [hruns]
        simp
    · rw [hruns]
      simp

/-- Replacing the run at a valid position by a run with the same id keeps
the positional-id property. -/
theorem ids_set {runs : List RunState}
    (hids : ∀ i, (h : i < runs.length) → (runs.get ⟨i, h⟩).id = i)
    {j : Nat} {r rr : RunState} (hj : runs[j]? = some r) (hid : rr.id = r.id) :
    ∀ i, (h : i < (runs.set j rr).length) → ((runs.set j rr).get ⟨i, h⟩).id = i := by
  intro i h
  have hlen : i < runs.length := by simpa using h
  obtain ⟨hjlt, hr⟩ := List.getElem?_eq_some_iff.1 hj
  rw [List.get_eq_getElem]
  by_cases hij : i = j
  · subst hij
    rw [List.getElem_set_self h, hid, ← hr]
    have := hids i hlen
    rwa [List.get_eq_getElem] at this
  · rw [List.getElem_set_ne (fun hh => hij hh.symm) h]
    have := hids i hlen
    rwa [List.get_eq_getElem] at this

/-- node.stop with no active run is the identity. -/
theorem nodeStop_none {n : NodeState} (h : n.active = none) : nodeStop n = n := by
  unfold nodeStop
  simp only [h]

/-- node.stop with a dangling active index only clears the pointer. -/
theorem nodeStop_noRun {n : NodeState} {i : Nat} (h : n.active = some i)
    (hr : n.runs[i]? = none) : nodeStop n = { n with active := none } := by
  unfold nodeStop
  simp only [h, hr]

/-- node.stop with an active run forwards stop to it and clears the
pointer. -/
theorem nodeStop_run {n : NodeState} {i : Nat} {r : RunState}
    (h : n.active = some i) (hr : n.runs[i]? = some r) :
    nodeStop n = { n with runs := n.runs.set i (nodeRunStop r).1, active := none } := by
  unfold nodeStop
  simp only [h, hr]

/-- node.pause with no active run is the identity. -/
theorem nodePause_none {n : NodeState} (h : n.active = none) : nodePause n = n := by
  unfold nodePause
  simp only [h]

/-- node.pause with a dangling active index is the identity. -/
theorem nodePause_noRun {n : NodeState} {i : Nat} (h : n.active = some i)
    (hr : n.runs[i]? = none) : nodePause n = n := by
  unfold nodePause
  simp only [h, hr]

/-- node.pause with an active run forwards pause to it. -/
theorem nodePause_run {n : NodeState} {i : Nat} {r : RunState}
    (h : n.active = some i) (hr : n.runs[i]? = some r) :
    nodePause n = { n with runs := n.runs.set i (nodeRunPause r).1 } := by
  unfold nodePause
  simp only [h, hr]

/-- node.resume with no active run is the identity. -/
theorem nodeResume_none {n : NodeState} (h : n.active = none) : nodeResume n = n := by
  unfold nodeResume
  simp only [h]

/-- node.resume with a dangling active index is the identity. -/
theorem nodeResume_noRun {n : NodeState} {i : Nat} (h : n.active = some i)
    (hr : n.runs[i]? = none) : nodeResume n = n := by
  unfold nodeResume
  simp only [h, hr]

/-- node.resume with an active run forwards resume to it. -/
theorem nodeResume_run {n : NodeState} {i : Nat} {r : RunState}
    (h : n.active = some i) (hr : n.runs[i]? = some r) :
    nodeResume n = { n with runs := n.runs.set i (nodeRunResume r).1 } := by
  unfold nodeResume
  simp only [h, hr]

/-- node.stop preserves the history invariant and the history length. -/
theorem nodeStop_inv {n : NodeState} (hinv : histInv n) :
    histInv (nodeStop n) ∧ (nodeStop n).runs.length = n.runs.length := by
  cases hact : n.active with
  | none => rw [nodeStop_none hact]; exact ⟨hinv, rfl⟩
  | some i =>
    cases hr : n.runs[i]? with
    | none =>
      rw [nodeStop_noRun hact hr]
      refine ⟨⟨hinv.1, ?_⟩, rfl⟩
      intro j hj
      simp at hj
    | some r =>
      rw [nodeStop_run hact hr]
      refine ⟨⟨ids_set hinv.1 hr (nodeRunStop_id r), ?_⟩, by simp⟩
      intro j hj
      simp at hj

/-- node.pause preserves the history invariant and the history length. -/
theorem nodePause_inv {n : NodeState} (hinv : histInv n) :
    histInv (nodePause n) ∧ (nodePause n).runs.length = n.runs.length := by
  cases hact : n.active with
  | none => rw [nodePause_none hact]; exact ⟨hinv, rfl⟩
  | some i =>
    cases hr : n.runs[i]? with
    | none => rw [nodePause_noRun hact hr]; exact ⟨hinv, rfl⟩
    | some r =>
      rw [nodePause_run hact hr]
      refine ⟨⟨ids_set hinv.1 hr (nodeRunPause_id r), ?_⟩, by simp⟩
      intro j hj
      have := hinv.2 j hj
      simpa using this

/-- node.resume preserves the history invariant and the history length. -/
theorem nodeResume_inv {n : NodeState} (hinv : histInv n) :
    histInv (nodeResume n) ∧ (nodeResume n).runs.length = n.runs.length := by
  cases hact : n.active with
  | none => rw [nodeResume_none hact]; exact ⟨hinv, rfl⟩
  | some i =>
    cases hr : n.runs[i]? with
    | none => rw [nodeResume_noRun hact hr]; exact ⟨hinv, rfl⟩
    | some r =>
      rw [nodeResume_run hact hr]
      refine ⟨⟨ids_set hinv.1 hr (nodeRunResume_id r), ?_⟩, by simp⟩
      intro j hj
      have := hinv.2 j hj
      simpa using this

/-- The waiter-and-handler step on a run outside the waiter set is the
identity (only runs whose waiter goroutine is armed can complete). -/
theorem nodeComplete_notArmed {n : NodeState} {i : Nat} (h : i ∉ n.waiters) :
    nodeComplete n i = .ok n := by
  unfold nodeComplete
  simp only [if_neg h]

/-- The waiter-and-handler step for an armed run: sinks closed, stop time
recorded, active pointer cleared, a restart scheduled in service mode. -/
theorem nodeComplete_run {n : NodeState} {i : Nat} {r rr : RunState}
    (hw : i ∈ n.waiters) (hr : n.runs[i]? = some r)
    (hwait : runWaiter r = .ok rr) :
    nodeComplete n i = .ok { n with
      runs := n.runs.set i rr, waiters := n.waiters.erase i
      active := none
      restarts := if n.service then n.restarts + 1 else n.restarts } := by
  unfold nodeComplete
  simp only [if_pos hw, hr, hwait]

/-- The waiter-and-handler step panics the application when the armed run's
waiter cannot close its sinks. -/
theorem nodeComplete_panic {n : NodeState} {i : Nat} {r : RunState} {c : Crash}
    (hw : i ∈ n.waiters) (hr : n.runs[i]? = some r)
    (hwait : runWaiter r = .error c) : nodeComplete n i = .error c := by
  unfold nodeComplete
  simp only [if_pos hw, hr, hwait]

/-- The waiter-and-handler step with a dangling waiter index (unreachable
in executions from newNode) clears the pointer and disarms the waiter. -/
theorem nodeComplete_noRun {n : NodeState} {i : Nat}
    (hw : i ∈ n.waiters) (hr : n.runs[i]? = none) :
    nodeComplete n i = .ok { n with
      waiters := n.waiters.erase i, active := none
      restarts := if n.service then n.restarts + 1 else n.restarts } := by
  unfold nodeComplete
  simp only [if_pos hw, hr]

/-- The waiter-and-handler step preserves the history invariant and the
history length. -/
theorem nodeComplete_inv {n : NodeState} {i : Nat} {n' : NodeState}
    (hinv : histInv n) (h : nodeComplete n i = .ok n') :
    histInv n' ∧ n'.runs.length = n.runs.length := by
  by_cases hw : i ∈ n.waiters
  · cases hr : n.runs[i]? with
    | none =>
      rw [nodeComplete_noRun hw hr] at h
      injection h with h
      subst h
      refine ⟨⟨hinv.1, ?_⟩, rfl⟩
      intro j hj
      simp at hj
    | some r =>
      cases hwait : runWaiter r with
      | error c =>
        rw [nodeComplete_panic hw hr hwait] at h
        exact absurd h (by simp)
      | ok rr =>
        rw [nodeComplete_run hw hr hwait] at h
        injection h with h
        subst h
        refine ⟨⟨ids_set hinv.1 hr (runWaiter_ok_id hwait), ?_⟩, by simp⟩
        intro j hj
        simp at hj
  · rw [nodeComplete_notArmed hw] at h
    injection h with h
    subst h
    exact ⟨hinv, rfl⟩

/-- A scheduled restart firing preserves the history invariant and can only
grow the history. -/
theorem nodeRestart_inv {n : NodeState} {o : Oracle} {n' : NodeState}
    (hinv : histInv n) (h : nodeRestart n o = .ok n') :
    histInv n' ∧ n.runs.length ≤ n'.runs.length := by
  unfold nodeRestart at h
  split at h
  · have hinv2 : histInv { n with restarts := n.restarts - 1 } := hinv
    obtain ⟨h1, h2⟩ := @nodeStart_inv _ _ _ hinv2 h
    exact ⟨h1, by simpa using h2⟩
  · injection h with h
    subst h
    exact ⟨hinv, le_refl _⟩

/-- Every operation preserves the history invariant, and the history is
append-only in length. -/
theorem nodeStep_inv {n : NodeState} {e : NEv} {n' : NodeState}
    (hinv : histInv n) (h : nodeStep n e = .ok n') :
    histInv n' ∧ n.runs.length ≤ n'.runs.length := by
  cases e with
  | start o => exact nodeStart_inv hinv h
  | stop =>
    injection h with h
    subst h
    obtain ⟨h1, h2⟩ := nodeStop_inv hinv
    exact ⟨h1, by omega⟩
  | pause =>
    injection h with h
    subst h
    obtain ⟨h1, h2⟩ := nodePause_inv hinv
    exact ⟨h1, by omega⟩
  | resume =>
    injection h with h
    subst h
    obtain ⟨h1, h2⟩ := nodeResume_inv hinv
    exact ⟨h1, by omega⟩
  | complete i =>
    obtain ⟨h1, h2⟩ := nodeComplete_inv hinv h
    exact ⟨h1, by omega⟩
  | restart o => exact nodeRestart_inv hinv h
  | setService b =>
    injection h with h
    subst h
    refine ⟨⟨hinv.1, ?_⟩, le_refl _⟩
    intro j hj
    simp only [] at hj
    exact hinv.2 j hj

/-- Executing any operation sequence preserves the history invariant and
never shrinks the history. -/
theorem nodeExec_inv :
    ∀ (es : List NEv) (n n' : NodeState), histInv n → nodeExec n es = .ok n' →
      histInv n' ∧ n.runs.length ≤ n'.runs.length := by
  intro es
  induction es with
  | nil =>
    intro n n' hinv h
    injection h with h
    subst h
    exact ⟨hinv, le_refl _⟩
  | cons e es ih =>
    intro n n' hinv h
    unfold nodeExec at h
    split at h
    · exact absurd h (by simp)
    · rename_i m hm
      obtain ⟨h1, h2⟩ := nodeStep_inv hinv hm
      obtain ⟨h3, h4⟩ := ih m n' h1 h
      exact ⟨h3, by omega⟩

/-- A node as newNode returns it satisfies the history invariant. -/
theorem newNode_inv {osq : OsEnv} {o : Oracle} {name : String}
    {args : List String} {env : List (String × String)} {service : Bool}
    {stdout stderr attributes locality : String} {n₀ : NodeState}
    (h : newNode osq o name args env service stdout stderr attributes locality =
      .ok n₀) : histInv n₀ := by
  unfold newNode at h
  simp only [] at h
  have hbase : ∀ m : NodeState, m.runs = [] → m.active = none → histInv m := by
    intro m h1 h2
    constructor
    · intro i hi
      rw [h1] at hi
      simp at hi
    · intro j hj
      rw [h2] at hj
      exact absurd hj (by simp)
  split at h
  · exact (nodeStart_inv (hbase _ rfl rfl) h).1
  · injection h with h
    subst h
    exact hbase _ rfl rfl

/-- Under the history invariant the id sequence of the history is exactly
the position sequence. -/
theorem runs_map_id {n : NodeState} (hinv : histInv n) :
    n.runs.map RunState.id = List.range n.runs.length := by
  apply List.ext_getElem
  · simp
  · intro i h1 h2
    simp only [List.getElem_map, List.getElem_range]
    have := hinv.1 i (by simpa using h1)
    rwa [List.get_eq_getElem] at this

/-! ## newNode reduction lemmas -/

/-- newNode in non-service mode returns the bare node. -/
theorem newNode_false (osq : OsEnv) (o : Oracle) (name : String)
    (args : List String) (env : List (String × String))
    (stdout stderr attributes locality : String) :
    newNode osq o name args env false stdout stderr attributes locality =
      .ok { name := name, args := args, env := addDefaultVars osq env
            stdout := replaceVars stdout (addDefaultVars osq env)
            stderr := replaceVars stderr (addDefaultVars osq env)
            attrs := attributes, locality := locality, active := none, runs := []
            service := false, waiters := [], restarts := 0 } := rfl

/-- newNode in service mode starts the bare node before returning. -/
theorem newNode_true (osq : OsEnv) (o : Oracle) (name : String)
    (args : List String) (env : List (String × String))
    (stdout stderr attributes locality : String) :
    newNode osq o name args env true stdout stderr attributes locality =
      nodeStart { name := name, args := args, env := addDefaultVars osq env
                  stdout := replaceVars stdout (addDefaultVars osq env)
                  stderr := replaceVars stderr (addDefaultVars osq env)
                  attrs := attributes, locality := locality, active := none, runs := []
                  service := true, waiters := [], restarts := 0 } o := rfl

/-! ## Claim theorems -/

/-- C1, counterexample: the claim says an occurrence of a name undefined in
the mapping is left verbatim as the braced form; on the code, expanding the
braced occurrence of the undefined name FOO yields the dollar sign followed
by the bare name — the braces are stripped — so the output differs from the
verbatim template. -/
theorem c1_undefined_not_verbatim :
    replaceVars "${FOO}" [] = "$FOO" ∧ replaceVars "${FOO}" [] ≠ "${FOO}" := by
  constructor
  · decide
  · decide

/-- C1 (amended): for every template string and variable mapping, expansion
parses the template into literal chunks and variable occurrences and never
fails; each occurrence whose name is defined in the mapping is replaced by
its value, and each occurrence whose name is undefined is rewritten to the
dollar sign followed by the bare name (the braces of a braced occurrence
are stripped), as the renderVars definition states case by case. -/
theorem c1_expansion (text : String) (vars : List (String × String)) :
    replaceVars text vars =
      String.mk ((parseTmpl text.data).flatMap (renderVars vars)) :=
  replaceVars_eq_render text vars

/-- C2, counterexample: the claim says a Run whose output sink cannot be
opened is marked failed without spawning and the supervising application
survives; on the code, starting such a Run calls log.Fatalf, which
terminates the whole application — the start of this concrete node with an
unopenable stdout path is a fatal crash, not a failed Run. -/
theorem c2_sink_failure_kills_app :
    nodeStart nodeSinkDenied orcNoOpen = .error (.fatal "out.log") := by
  decide

/-- C2 (amended): for every node with no active run, when a resolved output
path is nonempty and cannot be opened, start terminates the whole
supervising application via log.Fatalf naming that path; the Run is not
marked failed and the process is not spawned.  The first part is the
stdout branch (node.go:62-65); the second is the stderr branch
(node.go:71-74), reached when the stdout sink was skipped (empty path) or
opened successfully. -/
theorem c2_sink_failure_fatal (n : NodeState) (o : Oracle)
    (ha : n.active = none) :
    (0 < (perRunPath n.stdout n.runs.length).length →
      o.openOk (perRunPath n.stdout n.runs.length) = false →
      nodeStart n o = .error (.fatal (perRunPath n.stdout n.runs.length))) ∧
    (perRunPath n.stdout n.runs.length = "" ∨
        o.openOk (perRunPath n.stdout n.runs.length) = true →
      0 < (perRunPath n.stderr n.runs.length).length →
      o.openOk (perRunPath n.stderr n.runs.length) = false →
      nodeStart n o = .error (.fatal (perRunPath n.stderr n.runs.length))) := by
  constructor
  · intro hne hop
    unfold nodeStart
    rw [ha]
    simp only [nodeRunStart]
    rw [if_pos ⟨hne, hop⟩]
  · intro hok hne hop
    unfold nodeStart
    rw [ha]
    simp only [nodeRunStart]
    have hnA : ¬(0 < (perRunPath n.stdout n.runs.length).length ∧
        o.openOk (perRunPath n.stdout n.runs.length) = false) := by
      rcases hok with hempty | htrue
      · intro hcon
        rw [hempty] at hcon
        exact absurd hcon.1 (by decide)
      · intro hcon
        rw [htrue] at hcon
        exact absurd hcon.2 (by decide)
    rw [if_neg hnA]
    by_cases hpos : 0 < (perRunPath n.stdout n.runs.length).length
    · rw [if_pos hpos, if_pos ⟨hne, hop⟩]
    · rw [if_neg hpos, if_pos ⟨hne, hop⟩]

/-- C2 witness: the amended theorem at concrete nodes and oracle, once
through the stdout branch and once through the stderr branch. -/
theorem c2_witness :
    (nodeStart nodeSinkDeniedB orcNoOpen =
      .error (.fatal (perRunPath nodeSinkDeniedB.stdout
        nodeSinkDeniedB.runs.length))) ∧
    (nodeStart nodeStderrDenied orcNoOpen =
      .error (.fatal (perRunPath nodeStderrDenied.stderr
        nodeStderrDenied.runs.length))) :=
  ⟨(c2_sink_failure_fatal nodeSinkDeniedB orcNoOpen rfl).1 (by decide) (by decide),
   (c2_sink_failure_fatal nodeStderrDenied orcNoOpen rfl).2 (Or.inl (by decide))
     (by decide) (by decide)⟩

/-- C3, code bug: when both output path templates resolve to empty, no sink
is created for either stream (the claim's first two conjuncts hold: the
buffers stay nil and the child's streams are connected to the null device,
discarding output), but the Run's terminal transition does NOT complete
without error: the waiter's unconditional Close on the nil logWriter
interface is a nil-pointer panic, contradicting the claim's last
conjunct. -/
theorem c3_empty_path_terminal_panics :
    nodeRunStart runNoSinks orcOk = .spawned runNoSinksSpawned ∧
    runNoSinksSpawned.stdoutBuf = none ∧ runNoSinksSpawned.stderrBuf = none ∧
    runWaiter runNoSinksSpawned = .error .panicNilClose := by
  refine ⟨by decide, by decide, by decide, by decide⟩

/-- C4: starting a node with an active run is a no-op returning the state
unchanged, so two successive starts from the idle state create exactly one
new run, append exactly one history entry, and queue nothing. -/
theorem c4_start_idempotent (n : NodeState) (o o2 : Oracle) :
    (n.active.isSome = true → nodeStart n o = .ok n) ∧
    (n.active = none → ∀ n1, nodeStart n o = .ok n1 →
      nodeStart n1 o2 = .ok n1 ∧ n1.runs.length = n.runs.length + 1 ∧
      n1.runs.take n.runs.length = n.runs) := by
  constructor
  · intro h
    obtain ⟨k, hk⟩ := Option.isSome_iff_exists.1 h
    exact nodeStart_some o hk
  · intro ha n1 h1
    obtain ⟨ha1, ⟨rr, hruns, _, _⟩, _⟩ := nodeStart_ok_fields ha h1
    refine ⟨nodeStart_some o2 ha1, ?_, ?_⟩
    · rw [hruns]
      simp
    · rw [hruns, List.take_left]

/-- C4 witness: the theorem at a concrete node; the second start is the
literal identity on the started state. -/
theorem c4_witness :
    nodeStart nodeIdleStarted orcOk = .ok nodeIdleStarted ∧
    nodeIdleStarted.runs.length = nodeIdle.runs.length + 1 ∧
    nodeIdleStarted.runs.take nodeIdle.runs.length = nodeIdle.runs :=
  ⟨(c4_start_idempotent nodeIdleStarted orcOk orcOk).1 rfl,
   ((c4_start_idempotent nodeIdle orcOk orcOk).2 rfl nodeIdleStarted (by decide)).2⟩

/-- C5: in every state reachable from a constructed node by any sequence of
operations, the i-th history element has id i, the active run (when set) is
the last history element, and the history is append-only: the id sequence
reached earlier is a prefix of every later id sequence. -/
theorem c5_history (osq : OsEnv) (o : Oracle) (name : String)
    (args : List String) (env : List (String × String)) (service : Bool)
    (stdout stderr attributes locality : String) (n0 n1 n2 : NodeState)
    (es1 es2 : List NEv)
    (h0 : newNode osq o name args env service stdout stderr attributes locality =
      .ok n0)
    (h1 : nodeExec n0 es1 = .ok n1) (h2 : nodeExec n1 es2 = .ok n2) :
    (∀ i, (h : i < n2.runs.length) → (n2.runs.get ⟨i, h⟩).id = i) ∧
    (∀ j, n2.active = some j → j + 1 = n2.runs.length) ∧
    (n2.runs.map RunState.id).take n1.runs.length = n1.runs.map RunState.id := by
  have hinv0 := newNode_inv h0
  obtain ⟨hinv1, hle1⟩ := nodeExec_inv es1 n0 n1 hinv0 h1
  obtain ⟨hinv2, hle2⟩ := nodeExec_inv es2 n1 n2 hinv1 h2
  refine ⟨hinv2.1, hinv2.2, ?_⟩
  rw [runs_map_id hinv2, runs_map_id hinv1, List.take_range]
  congr 1
  omega

/-- C5 witness: the theorem along a concrete execution — one start step
appends run 0, which is active and last. -/
theorem c5_witness :
    0 + 1 = nodeIdleStarted.runs.length ∧
    (nodeIdleStarted.runs.map RunState.id).take nodeIdle.runs.length =
      nodeIdle.runs.map RunState.id := by
  have h := c5_history osPlain orcOk "w" ["bin"] [] false "" "" "" "" nodeIdle
    nodeIdle nodeIdleStarted [] [NEv.start orcOk] (by decide) rfl (by decide)
  exact ⟨h.2.1 0 rfl, h.2.2⟩

/-- C6, counterexample: the claim says stop, pause and resume are no-ops on
a Run with no live process handle, including one already Exited; on the
code the guard only checks Cmd and Cmd.Process for nil, and an exited run
still holds its process handle, so pause on this exited run flips its
paused flag — an observable state change, not a no-op. -/
theorem c6_exited_run_not_noop :
    runExited.stoppedSet = true ∧ runExited.paused = false ∧
    (nodeRunPause runExited).1 ≠ runExited := by
  refine ⟨by decide, by decide, by decide⟩

/-- C6 (amended): stop, pause and resume are no-ops exactly on a Run with
no process handle — never spawned (nil Cmd) or launch-failed (nil
Cmd.Process); on an already-Exited run they still mutate the paused flag
and attempt a signal, though the failed delivery is swallowed and nothing
is raised; stop, pause and resume on a node with no active run are
no-ops. -/
theorem c6_no_handle_noop (r : RunState) (n : NodeState)
    (hr : r.cmd = none ∨ r.cmd = some ⟨none⟩) (hn : n.active = none) :
    nodeRunStop r = (r, []) ∧ nodeRunPause r = (r, []) ∧
    nodeRunResume r = (r, []) ∧ nodeStop n = n ∧ nodePause n = n ∧
    nodeResume n = n := by
  refine ⟨?_, ?_, ?_, nodeStop_none hn, nodePause_none hn, nodeResume_none hn⟩ <;>
    rcases hr with h | h <;>
      simp [nodeRunStop, nodeRunPause, nodeRunResume, h]

/-- C6 witness: the amended theorem at a run whose spawn never succeeded
and at an idle node. -/
theorem c6_witness :
    nodeRunStop runFixture = (runFixture, []) ∧
    nodeRunPause runFixture = (runFixture, []) ∧
    nodeRunResume runFixture = (runFixture, []) ∧ nodeStop nodeIdle = nodeIdle ∧
    nodePause nodeIdle = nodeIdle ∧ nodeResume nodeIdle = nodeIdle :=
  c6_no_handle_noop runFixture nodeIdle (Or.inr rfl) rfl

/-- C7, code bug: the claim says the completion notification is signaled
exactly once per Run on either terminal path; on the code the
launch-failure path sends on an unbuffered channel whose receiving handler
goroutine is only created after start returns, so start blocks forever in
the send and the notification is delivered zero times — shown here by the
launch-failing run ending in the blocked state with its error recorded. -/
theorem c7_launch_failure_blocks :
    nodeRunStart runFixture orcNoSpawn = .blocked runLaunchFailed ∧
    runLaunchFailed.error = some "fork/exec error" := by
  refine ⟨by decide, by decide⟩

/-- C8, counterexample: the claim says any template containing a RUN
occurrence yields distinct paths for distinct runs under every construction
environment; the template below contains the braced RUN occurrence
followed by the name character x, construction-time expansion strips the
braces leaving a fused name, and runs 0 and 1 then resolve to the same
path. -/
theorem c8_fused_template_collides :
    ("${RUN}x" : String) = "" ++ "${RUN}" ++ "x" ∧
    newNode osPlain orcOk "n" ["bin"] [] false "${RUN}x" "" "" "" =
      .ok nodeFusedRun ∧
    perRunPath nodeFusedRun.stdout 0 = perRunPath nodeFusedRun.stdout 1 := by
  refine ⟨by decide, by decide, by decide⟩

/-- C8 (amended): whenever the stored (construction-expanded) output path
template still parses to contain a RUN variable occurrence — which holds
when the construction environment does not define RUN and no braced RUN
occurrence is immediately followed by a name character — any two distinct
run indices resolve to distinct output paths. -/
theorem c8_distinct_paths (s : String)
    (hmem : Tok.var runChars ∈ parseTmpl s.data) {i j : Nat} (hij : i ≠ j) :
    perRunPath s i ≠ perRunPath s j :=
  perRunPath_inj hmem hij

/-- C8 witness: the repository-style template keeps the RUN occurrence and
runs 0 and 1 get distinct files. -/
theorem c8_witness : perRunPath "l/${RUN}.out" 0 ≠ perRunPath "l/${RUN}.out" 1 :=
  c8_distinct_paths "l/${RUN}.out" (by decide) (by decide)

/-- C9: Status is recomputed from the current fields on every query (it is
a function of the state, nothing is cached) and returns Paused exactly when
there is an active run whose process handle is present with a positive pid
— the code's liveness test — and whose paused flag is set; Running exactly
when there is such a live active run with paused clear; and Stopped in
every other case. -/
theorem c9_status_derived (n : NodeState) :
    (nodeStatus n = "Paused" ↔ ∃ i r c pid, n.active = some i ∧
      n.runs[i]? = some r ∧ r.cmd = some c ∧ c.process = some pid ∧
      0 < pid ∧ r.paused = true) ∧
    (nodeStatus n = "Running" ↔ ∃ i r c pid, n.active = some i ∧
      n.runs[i]? = some r ∧ r.cmd = some c ∧ c.process = some pid ∧
      0 < pid ∧ r.paused = false) ∧
    (nodeStatus n = "Stopped" ↔ ¬ ∃ i r c pid, n.active = some i ∧
      n.runs[i]? = some r ∧ r.cmd = some c ∧ c.process = some pid ∧
      0 < pid) := by
  have hSP : ¬(("Stopped" : String) = "Paused") := by decide
  have hSR : ¬(("Stopped" : String) = "Running") := by decide
  have hPR : ¬(("Paused" : String) = "Running") := by decide
  have hPS : ¬(("Paused" : String) = "Stopped") := by decide
  have hRP : ¬(("Running" : String) = "Paused") := by decide
  have hRS : ¬(("Running" : String) = "Stopped") := by decide
  cases hact : n.active with
  | none => simp [nodeStatus, hact, hSP, hSR]
  | some i =>
    cases hr : n.runs[i]? with
    | none => simp [nodeStatus, hact, hr, hSP, hSR]
    | some r =>
      cases hcmd : r.cmd with
      | none => simp [nodeStatus, hact, hr, hcmd, hSP, hSR]
      | some c =>
        cases hproc : c.process with
        | none => simp [nodeStatus, hact, hr, hcmd, hproc, hSP, hSR]
        | some pid =>
          by_cases hpid : 0 < pid
          · cases hpaused : r.paused with
            | true => simp [nodeStatus, hact, hr, hcmd, hproc, hpid, hpaused, hPR, hPS]
            | false => simp [nodeStatus, hact, hr, hcmd, hproc, hpid, hpaused, hRP, hRS]
          · simp [nodeStatus, hact, hr, hcmd, hproc, hpid, hSP, hSR]

/-- C10: constructing a node in service mode launches run 0 inside the
constructor — the returned node already has one history entry with id 0,
started, and active — while a non-service node is returned with an empty
history and no active run. -/
theorem c10_service_autostart (osq : OsEnv) (o : Oracle) (name : String)
    (args : List String) (env : List (String × String))
    (stdout stderr attributes locality : String) :
    (∀ n, newNode osq o name args env false stdout stderr attributes locality =
        .ok n → n.runs = [] ∧ n.active = none) ∧
    (∀ n, newNode osq o name args env true stdout stderr attributes locality =
        .ok n → n.active = some 0 ∧ n.runs.length = 1 ∧
        ∀ r, n.runs[0]? = some r → r.id = 0 ∧ r.startedSet = true) := by
  constructor
  · intro n h
    rw [newNode_false] at h
    injection h with h
    subst h
    exact ⟨rfl, rfl⟩
  · intro n h
    rw [newNode_true] at h
    obtain ⟨ha1, ⟨rr, hruns, hid, hst⟩, _⟩ := nodeStart_ok_fields rfl h
    refine ⟨by simpa using ha1, by rw [hruns]; simp, ?_⟩
    intro r hr0
    rw [hruns] at hr0
    simp only [List.nil_append] at hr0 hruns
    have : rr = r := by
      have h0 : ([rr] : List RunState)[0]? = some rr := rfl
      rw [h0] at hr0
      injection hr0
    subst this
    exact ⟨by simpa using hid, hst⟩

/-- C10 witness: the theorem at a concrete construction in each mode. -/
theorem c10_witness :
    (nodeIdle.runs = [] ∧ nodeIdle.active = none) ∧
    nodeServiceStarted.active = some 0 ∧ nodeServiceStarted.runs.length = 1 := by
  have h1 := (c10_service_autostart osPlain orcOk "w" ["bin"] [] "" "" "" "").1
    nodeIdle (by decide)
  have h2 := (c10_service_autostart osPlain orcOk "w" ["bin"] [] "" "" "" "").2
    nodeServiceStarted (by decide)
  exact ⟨h1, h2.1, h2.2.1⟩

end RoachDemo

